import Mathlib

/-
Verification development for `autogpt/commands/file_operations.py`.

The Python module is shallowly embedded: strings are Lean `String`s (with the
heavy lifting on `List Char`), the filesystem is a map from absolute path
strings to file contents, and Python control flow (early returns, caught
exceptions, the recursion limit) is made explicit.  Every definition is
translated from the source code of the module; the embedding of the Python
standard-library helpers it calls (`os.path.join`, `os.path.normpath`,
`os.path.commonprefix`, `str.replace`, `int`, `file.readlines`) follows the
CPython implementations of those functions for POSIX platforms.
-/

namespace FileOps

/-! ## Python string/path primitives -/

/-- Character-wise longest common prefix of two character lists; this is
`os.path.commonprefix` restricted to a two-element list, which is how
`safe_join` calls it. -/
def lcpL : List Char → List Char → List Char
  | a :: as, b :: bs => if a = b then a :: lcpL as bs else []
  | _, _ => []

/-- Python `str.split(sep)` for a one-character separator: splits at every
occurrence and keeps empty pieces, so the result is always nonempty. -/
def splitSepC (sep : Char) : List Char → List (List Char)
  | [] => [[]]
  | c :: t =>
    if c = sep then [] :: splitSepC sep t
    else
      match splitSepC sep t with
      | [] => [[c]]
      | h :: r => (c :: h) :: r

/-- The component-processing loop of CPython `posixpath.normpath`: `acc` is the
`new_comps` stack (most recent component first); `initial` is the truthiness of
`initial_slashes`. -/
def normLoop (initial : Bool) : List (List Char) → List (List Char) → List (List Char)
  | acc, [] => acc.reverse
  | acc, comp :: rest =>
    if comp = [] ∨ comp = ['.'] then normLoop initial acc rest
    else if comp ≠ ['.', '.'] ∨ (initial = false ∧ acc = []) ∨
        (acc ≠ [] ∧ acc.head? = some ['.', '.']) then
      normLoop initial (comp :: acc) rest
    else
      match acc with
      | [] => normLoop initial [] rest
      | _ :: t => normLoop initial t rest

/-- CPython `posixpath.normpath` on a character list: collapses `.`,`..` and
redundant separators, preserving one or two leading slashes. -/
def pyNormpathL (p : List Char) : List Char :=
  if p = [] then ['.']
  else
    let initialSlashes : Nat :=
      if p.take 1 = ['/'] then
        if p.take 2 = ['/', '/'] ∧ p.take 3 ≠ ['/', '/', '/'] then 2 else 1
      else 0
    let newComps := normLoop (initialSlashes != 0) [] (splitSepC '/' p)
    let res := List.replicate initialSlashes '/' ++ List.intercalate ['/'] newComps
    if res = [] then ['.'] else res

/-- One step of CPython `posixpath.join`: absolute components reset the
accumulated path, otherwise a `/` separator is inserted unless one is already
present. -/
def pyJoin1 (acc : List Char) (p : List Char) : List Char :=
  if p.take 1 = ['/'] then p
  else if acc = [] ∨ acc.getLast? = some '/' then acc ++ p
  else acc ++ '/' :: p

/-- CPython `posixpath.join(base, *paths)`. -/
def pyJoinL (base : List Char) (ps : List (List Char)) : List Char :=
  ps.foldl pyJoin1 base

/-! ## safe_join (the PathGuard) -/

/-- The normalized platform join `os.path.normpath(os.path.join(base, *paths))`
computed inside `safe_join`. -/
def normjoin (base : String) (paths : List String) : String :=
  String.mk (pyNormpathL (pyJoinL base.data (paths.map String.data)))

/-- `safe_join(base, *paths)` from `file_operations.py`.  `none` models the
raised `ValueError("Attempted to access outside of working directory.")`; the
source tests `os.path.commonprefix([base, norm_new_path]) != base`. -/
def safe_join (base : String) (paths : List String) : Option String :=
  let np := normjoin base paths
  if lcpL base.data np.data = base.data then some np else none

lemma lcpL_eq_left_iff : ∀ (a b : List Char), lcpL a b = a ↔ a <+: b
  | [], b => by
    simp [lcpL]
  | a :: as, [] => by
    simp only [lcpL]
    constructor
    · intro h; exact absurd h (by simp)
    · intro h
      rcases h with ⟨t, ht⟩
      simp at ht
  | a :: as, b :: bs => by
    by_cases hab : a = b
    · subst hab
      simp only [lcpL, if_pos rfl]
      constructor
      · intro h
        have h2 : lcpL as bs = as := by
          injection h
        rcases (lcpL_eq_left_iff as bs).mp h2 with ⟨t, ht⟩
        exact ⟨t, by simp [ht]⟩
      · intro h
        rcases h with ⟨t, ht⟩
        have ht2 : as ++ t = bs := by
          simpa using ht
        have := (lcpL_eq_left_iff as bs).mpr ⟨t, ht2⟩
        simp [this]
    · simp only [lcpL, if_neg hab]
      constructor
      · intro h; exact absurd h (by simp)
      · intro h
        rcases h with ⟨t, ht⟩
        simp at ht
        exact absurd ht.1 hab

/-- C1: `safe_join` (the PathGuard `resolve`) is a pure function over strings
that fails (raises `ValueError`, the spec's `PathEscapeError`) exactly when the
platform-joined, normalized result does not have `base` as a literal string
prefix, and otherwise returns that normalized path. -/
theorem safe_join_spec (base : String) (paths : List String) :
    (safe_join base paths = some (normjoin base paths)
        ∧ base.data <+: (normjoin base paths).data)
    ∨ (safe_join base paths = none
        ∧ ¬ base.data <+: (normjoin base paths).data) := by
  by_cases h : lcpL base.data (normjoin base paths).data = base.data
  · exact Or.inl ⟨by simp [safe_join, h], (lcpL_eq_left_iff _ _).mp h⟩
  · exact Or.inr ⟨by simp [safe_join, h], fun hp => h ((lcpL_eq_left_iff _ _).mpr hp)⟩

/-- The escape example from the specification: resolving `../etc/passwd`
against `/sandbox` normalizes to `/etc/passwd` and is rejected. -/
theorem safe_join_blocks_escape :
    safe_join "/sandbox" ["../etc/passwd"] = none
      ∧ normjoin "/sandbox" ["../etc/passwd"] = "/etc/passwd" := by
  constructor <;> decide

/-! ## Filesystem state and module constants -/

/-- The filesystem: a map from absolute path strings to file contents.
Directories are not modelled (`os.makedirs` has no effect on file contents). -/
def FS : Type := String → Option String

/-- Write (create or truncate) a file, as `open(p, "w")` followed by a full
write. -/
def fsWrite (fs : FS) (p c : String) : FS :=
  fun q => if q = p then some c else fs q

/-- Append to a file, as `open(p, "a")`: the file is created empty if absent
and the text is added at the end. -/
def fsAppend (fs : FS) (p c : String) : FS :=
  fsWrite fs p (((fs p).getD "") ++ c)

/-- An empty sandbox. -/
def emptyFS : FS := fun _ => none

/-- The module-level `WORKING_DIRECTORY` (the sandbox root); the process
working directory is modelled as the filesystem root. -/
def WORKING_DIRECTORY : String := "/auto_gpt_workspace"

/-- The module-level `LOG_FILE` constant. -/
def LOG_FILE : String := "file_logger.txt"

/-- The module-level `LOG_FILE_PATH` constant (`WORKING_DIRECTORY / LOG_FILE`). -/
def LOG_FILE_PATH : String := "/auto_gpt_workspace/file_logger.txt"

/-- Python `needle in haystack` prefix test helper. -/
def isPrefixB : List Char → List Char → Bool
  | [], _ => true
  | _ :: _, [] => false
  | a :: as, b :: bs => a = b && isPrefixB as bs

/-- Python substring containment `needle in haystack`. -/
def isInfixB (n : List Char) : List Char → Bool
  | [] => isPrefixB n []
  | c :: t => isPrefixB n (c :: t) || isInfixB n t

/-! ## read_file and the operation log -/

/-- `read_file(filename)`: resolves through `safe_join` and returns the file
content; every failure (the `ValueError` from `safe_join`, or a missing file)
is caught and surfaced as an `"Error: ..."` string, mirroring
`f"Error: {str(e)}"` with CPython's exception texts. -/
def read_file (filename : String) (fs : FS) : String :=
  match safe_join WORKING_DIRECTORY [filename] with
  | none => "Error: Attempted to access outside of working directory."
  | some p =>
    match fs p with
    | some c => c
    | none => "Error: [Errno 2] No such file or directory: '" ++ p ++ "'"

/-- `check_duplicate_operation(operation, filename)`: substring check of the
entry line against the full log content as returned by `read_file`. -/
def check_duplicate_operation (operation filename : String) (fs : FS) : Bool :=
  isInfixB (operation ++ ": " ++ filename ++ "\n").data (read_file LOG_FILE fs).data

/-- Creation of the log file with its fixed header, the
`if not os.path.exists(LOG_FILE_PATH)` block of `log_operation`.  Note the
header has no trailing newline in the source. -/
def ensureLog (fs : FS) : FS :=
  if (fs LOG_FILE_PATH).isSome then fs
  else fsWrite fs LOG_FILE_PATH "File Operation Logger "

/-- The log entry string for an operation. -/
def mkEntry (operation filename : String) : String :=
  operation ++ ": " ++ filename ++ "\n"

/-- `log_operation(operation, filename)`.

In the source, `log_operation` calls `append_to_file(LOG_FILE, log_entry)` and
`append_to_file` unconditionally calls `log_operation("append", LOG_FILE)`
again: the two functions recurse into each other until Python's recursion
limit aborts the descent with a `RecursionError`, which the deepest
`append_to_file` catches in its `except Exception` handler.  `fuel` is the
remaining stack headroom (about 1000 frames in CPython); each nested call
consumes one unit, and a call at fuel `0` raises.  The returned `Bool` is
`true` when the call raised (only possible at fuel `0`, since
`append_to_file` catches everything below it).

The recursive equation inlines `append_to_file fuel LOG_FILE entry`, using
`safe_join(WORKING_DIRECTORY, LOG_FILE) = LOG_FILE_PATH`; the lemma
`log_operation_succ` below re-establishes the exact mutual shape of the
source. -/
def log_operation : Nat → String → String → FS → FS × Bool
  | 0, _, _, fs => (ensureLog fs, true)
  | 1, op, fn, fs => (fsAppend (ensureLog fs) LOG_FILE_PATH (mkEntry op fn), false)
  | (g + 2), op, fn, fs =>
    ((log_operation g "append" LOG_FILE
        (fsAppend (ensureLog fs) LOG_FILE_PATH (mkEntry op fn))).1, false)

/-- `append_to_file(filename, text)`: resolves the path, appends, then logs
the append (which recurses; see `log_operation`).  A raise from the inner
`log_operation` (the recursion limit) is caught by the `except Exception`
handler and surfaced as an error string. -/
def append_to_file (fuel : Nat) (filename text : String) (fs : FS) : FS × String :=
  match safe_join WORKING_DIRECTORY [filename] with
  | none => (fs, "Error: Attempted to access outside of working directory.")
  | some fp =>
    let st1 := fsAppend fs fp text
    match fuel with
    | 0 => (st1, "Error: maximum recursion depth exceeded")
    | f + 1 =>
      match log_operation f "append" LOG_FILE st1 with
      | (st2, true) => (st2, "Error: maximum recursion depth exceeded")
      | (st2, false) => (st2, "Text appended successfully.")

lemma safe_join_log : safe_join WORKING_DIRECTORY [LOG_FILE] = some LOG_FILE_PATH := by
  decide

/-- Fidelity of the `log_operation` recursion to the mutual shape of the
source: at positive fuel, `log_operation` is exactly the header-creation step
followed by `append_to_file` on the log file with one unit of fuel consumed,
its message discarded. -/
theorem log_operation_succ (f : Nat) (op fn : String) (fs : FS) :
    log_operation (f + 1) op fn fs
      = ((append_to_file f LOG_FILE (mkEntry op fn) (ensureLog fs)).1, false) := by
  match f with
  | 0 =>
    simp [log_operation, append_to_file, safe_join_log]
  | g + 1 =>
    simp only [log_operation, append_to_file, safe_join_log]
    rcases h : log_operation g "append" LOG_FILE
        (fsAppend (ensureLog fs) LOG_FILE_PATH (mkEntry op fn)) with ⟨st2, b⟩
    cases b <;> simp

/-- `write_to_file(filename, text)`: duplicate check, path resolution (the
`ValueError` is caught by the `except` and stringified), write, then
`log_operation`. -/
def write_to_file (fuel : Nat) (filename text : String) (fs : FS) : FS × String :=
  if check_duplicate_operation "write" filename fs then
    (fs, "Error: File has already been updated.")
  else
    match safe_join WORKING_DIRECTORY [filename] with
    | none => (fs, "Error: Attempted to access outside of working directory.")
    | some fp =>
      let st1 := fsWrite fs fp text
      match log_operation fuel "write" filename st1 with
      | (st2, true) => (st2, "Error: maximum recursion depth exceeded")
      | (st2, false) => (st2, "File written to successfully.")

/-! ## Frame lemmas for the operation log -/

lemma fsWrite_ne (fs : FS) (p c q : String) (h : q ≠ p) : fsWrite fs p c q = fs q := by
  simp [fsWrite, h]

lemma fsAppend_ne (fs : FS) (p c q : String) (h : q ≠ p) : fsAppend fs p c q = fs q := by
  simp [fsAppend, fsWrite, h]

lemma ensureLog_ne (fs : FS) (q : String) (h : q ≠ LOG_FILE_PATH) :
    ensureLog fs q = fs q := by
  unfold ensureLog
  split
  · rfl
  · exact fsWrite_ne _ _ _ _ h

/-- `log_operation` only ever touches the log file. -/
lemma log_operation_frame :
    ∀ (fuel : Nat) (op fn : String) (fs : FS) (q : String), q ≠ LOG_FILE_PATH →
      (log_operation fuel op fn fs).1 q = fs q := by
  intro fuel
  induction fuel using Nat.strong_induction_on with
  | _ fuel ih =>
    match fuel with
    | 0 =>
      intro op fn fs q hq
      simp [log_operation, ensureLog_ne _ _ hq]
    | 1 =>
      intro op fn fs q hq
      simp [log_operation, fsAppend_ne _ _ _ _ hq, ensureLog_ne _ _ hq]
    | g + 2 =>
      intro op fn fs q hq
      simp only [log_operation]
      rw [ih g (by omega) _ _ _ _ hq, fsAppend_ne _ _ _ _ hq, ensureLog_ne _ _ hq]

/-- At fuel at least `1`, `log_operation` returns normally (the recursion
limit is only hit strictly below). -/
lemma log_operation_no_raise (fuel : Nat) (h : 1 ≤ fuel) (op fn : String) (fs : FS) :
    (log_operation fuel op fn fs).2 = false := by
  match fuel with
  | 1 => rfl
  | g + 2 => rfl

/-- C2: if a `write` entry for `filename` is already recorded in the
operation log, `write_to_file` fails with the duplicate-operation error
(`"Error: File has already been updated."`) and leaves the whole filesystem —
in particular that file's content — unchanged. -/
theorem write_duplicate_rejected (fuel : Nat) (filename text : String) (fs : FS)
    (log : String) (h1 : fs LOG_FILE_PATH = some log)
    (h2 : isInfixB ("write: " ++ filename ++ "\n").data log.data = true) :
    write_to_file fuel filename text fs = (fs, "Error: File has already been updated.") := by
  have hdup : check_duplicate_operation "write" filename fs = true := by
    have hread : read_file LOG_FILE fs = log := by
      simp [read_file, safe_join_log, h1]
    simpa [check_duplicate_operation, hread] using h2
  simp [write_to_file, hdup]

/-- Witness for C2, realising the spec's scenario: on an empty sandbox the
first `write("a.txt", "x")` succeeds and logs itself; the second
`write("a.txt", "y")` is rejected, the state is untouched and the content of
`a.txt` is still `"x"`. -/
theorem write_duplicate_rejected_witness :
    (write_to_file 3 "a.txt" "x" emptyFS).2 = "File written to successfully."
    ∧ (write_to_file 3 "a.txt" "x" emptyFS).1 "/auto_gpt_workspace/a.txt" = some "x"
    ∧ write_to_file 3 "a.txt" "y" (write_to_file 3 "a.txt" "x" emptyFS).1
        = ((write_to_file 3 "a.txt" "x" emptyFS).1, "Error: File has already been updated.") := by
  refine ⟨by decide, by decide, ?_⟩
  exact write_duplicate_rejected 3 "a.txt" "y" _
    "File Operation Logger write: a.txt\nappend: file_logger.txt\n"
    (by decide) (by decide)

/-- C9: two successive `append_to_file` calls on the same file both succeed
(there is no duplicate check on append), and the file ends up holding the
texts concatenated in call order.  `fuel ≥ 2` reflects Python's recursion
headroom (about 1000 in practice); the file must not be the operation log
itself, which the logging recursion also appends to. -/
theorem append_twice (fuel : Nat) (hf : 2 ≤ fuel) (filename t1 t2 fp : String)
    (hj : safe_join WORKING_DIRECTORY [filename] = some fp)
    (hne : fp ≠ LOG_FILE_PATH) (fs : FS) :
    (append_to_file fuel filename t1 fs).2 = "Text appended successfully."
    ∧ (append_to_file fuel filename t2 (append_to_file fuel filename t1 fs).1).2
        = "Text appended successfully."
    ∧ (append_to_file fuel filename t2 (append_to_file fuel filename t1 fs).1).1 fp
        = some (((fs fp).getD "") ++ t1 ++ t2) := by
  match fuel, hf with
  | f + 1, hf =>
    have hf1 : 1 ≤ f := by omega
    have step : ∀ (st : FS) (t : String),
        append_to_file (f + 1) filename t st
          = ((log_operation f "append" LOG_FILE (fsAppend st fp t)).1,
              "Text appended successfully.") := by
      intro st t
      simp only [append_to_file, hj]
      rcases h : log_operation f "append" LOG_FILE (fsAppend st fp t) with ⟨st2, b⟩
      have hb : b = false := by
        have := log_operation_no_raise f hf1 "append" LOG_FILE (fsAppend st fp t)
        rw [h] at this
        exact this
      subst hb
      simp
    have frame1 : (append_to_file (f + 1) filename t1 fs).1 fp
        = some (((fs fp).getD "") ++ t1) := by
      rw [step]
      rw [log_operation_frame f "append" LOG_FILE _ fp hne]
      simp [fsAppend, fsWrite]
    refine ⟨by rw [step], by rw [step], ?_⟩
    rw [step]
    rw [log_operation_frame f "append" LOG_FILE _ fp hne]
    simp only [fsAppend]
    rw [frame1]
    simp [fsWrite]

/-- Witness for C9: `append("a.txt","1")` then `append("a.txt","2")` on an
empty sandbox both succeed and leave content `"12"`. -/
theorem append_twice_witness :
    (append_to_file 2 "a.txt" "1" emptyFS).2 = "Text appended successfully."
    ∧ (append_to_file 2 "a.txt" "2" (append_to_file 2 "a.txt" "1" emptyFS).1).2
        = "Text appended successfully."
    ∧ (append_to_file 2 "a.txt" "2" (append_to_file 2 "a.txt" "1" emptyFS).1).1
        "/auto_gpt_workspace/a.txt" = some "12" := by
  have h := append_twice 2 (by omega) "a.txt" "1" "2" "/auto_gpt_workspace/a.txt"
    (by decide) (by decide) emptyFS
  simpa [emptyFS] using h

/-- C7 (code bug): `log_operation` does not append a single entry line.
Because `log_operation` and `append_to_file` call each other unconditionally,
one `record("write", "a.txt")` on a log holding just the header appends the
entry line *and* a cascade of spurious `"append: file_logger.txt\n"` lines —
one per two frames of remaining recursion headroom (with CPython's limit of
about 1000 frames, roughly 500 of them).  Evaluated here at recursion headroom
5: two spurious lines appear, and the log differs from the
single-entry-appended content the claim requires. -/
theorem log_operation_recursion_bug :
    (log_operation 5 "write" "a.txt"
        (fsWrite emptyFS LOG_FILE_PATH "File Operation Logger ")).1 LOG_FILE_PATH
      = some ("File Operation Logger write: a.txt\nappend: file_logger.txt\nappend: file_logger.txt\n")
    ∧ (log_operation 5 "write" "a.txt"
        (fsWrite emptyFS LOG_FILE_PATH "File Operation Logger ")).1 LOG_FILE_PATH
      ≠ some ("File Operation Logger write: a.txt\n") := by
  constructor <;> decide

/-! ## split_file (the Chunker) -/

/-- Python slice `l[a:b]` (step 1) on a character list: negative indices count
from the end, and both endpoints clamp to `[0, len]`. -/
def pySlice (l : List Char) (a b : Int) : List Char :=
  let n : Int := l.length
  let a2 : Int := if a < 0 then max (n + a) 0 else min a n
  let b2 : Int := if b < 0 then max (n + b) 0 else min b n
  (l.take b2.toNat).drop a2.toNat

/-- The generator loop of `split_file`, run from window start `start` with
`fuel` remaining iterations: `none` means the fuel ran out while the loop
guard `start < content_length` still held (the generator has not finished),
`some cs` the finite list of chunks the generator yields.  Mirrors the source:
`end = start + max_length`; the chunk is `content[start : end + overlap]`
when `end + overlap < content_length` and `content[start:content_length]`
otherwise; the start advances by `max_length - overlap`. -/
def splitFrom (content : List Char) (maxLength overlap : Int) :
    Nat → Int → Option (List (List Char))
  | 0, start => if start < (content.length : Int) then none else some []
  | fuel + 1, start =>
    if start < (content.length : Int) then
      let e := start + maxLength
      let chunk :=
        if e + overlap < (content.length : Int) then pySlice content start (e + overlap)
        else pySlice content start (content.length : Int)
      match splitFrom content maxLength overlap fuel (start + maxLength - overlap) with
      | none => none
      | some rest => some (chunk :: rest)
    else some []

/-- `split_file(content, max_length, overlap)` as the list of chunks its
generator yields within `fuel` loop iterations (`none`: still running). -/
def split_file (content : List Char) (maxLength overlap : Int) (fuel : Nat) :
    Option (List (List Char)) :=
  splitFrom content maxLength overlap fuel 0

lemma splitFrom_done (content : List Char) (maxLength overlap : Int) (fuel : Nat)
    (start : Int) (h : (content.length : Int) ≤ start) :
    splitFrom content maxLength overlap fuel start = some [] := by
  match fuel with
  | 0 => simp [splitFrom, h, not_lt.mpr h]
  | f + 1 => simp [splitFrom, h, not_lt.mpr h]

lemma splitFrom_some_nil (content : List Char) (maxLength overlap : Int) (fuel : Nat)
    (start : Int) (h : splitFrom content maxLength overlap fuel start = some []) :
    (content.length : Int) ≤ start := by
  by_contra hlt
  push_neg at hlt
  match fuel with
  | 0 => simp [splitFrom, hlt] at h
  | f + 1 =>
    simp only [splitFrom, if_pos hlt] at h
    rcases hr : splitFrom content maxLength overlap f (start + maxLength - overlap) with _ | rest
    · rw [hr] at h; simp at h
    · rw [hr] at h; simp at h

/-- With a non-positive advance step (`overlap ≥ maxLength`) and nonempty
content, the loop guard holds forever: no amount of fuel finishes the
generator. -/
lemma splitFrom_none_of_ge (content : List Char) (maxLength overlap : Int)
    (hov : maxLength ≤ overlap) (hc : content ≠ []) :
    ∀ (fuel : Nat) (start : Int), start ≤ 0 →
      splitFrom content maxLength overlap fuel start = none := by
  have hlen : (0 : Int) < content.length := by
    cases content with
    | nil => exact absurd rfl hc
    | cons c t => simp
  intro fuel
  induction fuel with
  | zero =>
    intro start hs
    simp [splitFrom, lt_of_le_of_lt hs hlen]
  | succ f ih =>
    intro start hs
    have hrec := ih (start + maxLength - overlap) (by omega)
    simp [splitFrom, lt_of_le_of_lt hs hlen, hrec]

/-- Whenever `0 ≤ overlap < maxLength`, the generator finishes: fuel
`content.length + 1` always suffices. -/
lemma split_file_terminates (content : List Char) (maxLength overlap : Int)
    (h0 : 0 ≤ overlap) (h1 : overlap < maxLength) :
    ∃ cs, split_file content maxLength overlap (content.length + 1) = some cs := by
  suffices hgen : ∀ (n : Nat) (start : Int), 0 ≤ start →
      content.length - start.toNat < n →
      ∃ cs, splitFrom content maxLength overlap n start = some cs by
    exact hgen (content.length + 1) 0 le_rfl (by omega)
  intro n
  induction n with
  | zero => intro start _ h; omega
  | succ m ih =>
    intro start hs hf
    by_cases hlt : start < (content.length : Int)
    · have hs2 : (0 : Int) ≤ start + maxLength - overlap := by omega
      have hm : content.length - (start + maxLength - overlap).toNat < m := by omega
      rcases ih (start + maxLength - overlap) hs2 hm with ⟨cs, hcs⟩
      simp only [splitFrom, if_pos hlt, hcs]
      exact ⟨_, rfl⟩
    · exact ⟨[], splitFrom_done _ _ _ _ _ (not_lt.mp hlt)⟩

/-- C6 (code bug): the source has no `InvalidConfiguration` guard.  With
`overlap ≥ maxLength` (here the spec's example `maxLength = 10`,
`overlap = 10`) the generator never finishes — no fuel bound completes the
loop — instead of failing; with `overlap < maxLength` the yielded sequence is
finite (fuel `length + 1` always completes). -/
theorem split_file_no_guard :
    (∀ fuel : Nat, split_file ("a".data) 10 10 fuel = none)
    ∧ (∀ (content : List Char) (maxLength overlap : Int), 0 ≤ overlap →
        overlap < maxLength →
        ∃ cs, split_file content maxLength overlap (content.length + 1) = some cs) := by
  constructor
  · intro fuel
    exact splitFrom_none_of_ge _ _ _ (by omega) (by decide) fuel 0 le_rfl
  · intro content maxLength overlap h0 h1
    exact split_file_terminates content maxLength overlap h0 h1

/-- Witness for C6: the finiteness half at a concrete input. -/
theorem split_file_no_guard_witness :
    ∃ cs, split_file ("ab".data) 4 1 3 = some cs :=
  split_file_no_guard.2 ("ab".data) 4 1 (by omega) (by omega)

/-! ## Chunk geometry of split_file -/

/-- The contiguous segment of `k` characters of `l` starting at position `s`. -/
def seg (l : List Char) (s k : Nat) : List Char := (l.drop s).take k

lemma seg_length (l : List Char) (s k : Nat) :
    (seg l s k).length = min k (l.length - s) := by
  simp [seg]

lemma pySlice_nonneg (l : List Char) (a b : Int) (ha : 0 ≤ a) (hb : 0 ≤ b) :
    pySlice l a b = seg l a.toNat (b.toNat - a.toNat) := by
  simp only [pySlice, seg, if_neg (not_lt.mpr ha), if_neg (not_lt.mpr hb)]
  rw [List.drop_take]
  rcases le_or_lt a (l.length : Int) with hA | hA
  · rcases le_or_lt b (l.length : Int) with hB | hB
    · rw [min_eq_left hA, min_eq_left hB]
    · rw [min_eq_left hA, min_eq_right (le_of_lt hB)]
      rw [List.take_of_length_le (by simp only [List.length_drop]; omega),
        List.take_of_length_le (by simp only [List.length_drop]; omega)]
  · have e1 : l.drop ((min a (l.length : Int)).toNat) = [] :=
      List.drop_eq_nil_of_le (by omega)
    have e2 : l.drop a.toNat = [] := List.drop_eq_nil_of_le (by omega)
    rw [e1, e2]
    simp

/-- The chunk taken by one loop iteration of `split_file`, as a segment of the
content: it runs from `start` to `min (start + maxLength + overlap) L`. -/
lemma chunk_eq (content : List Char) (maxLength overlap start : Int) (hs : 0 ≤ start)
    (hpos : 0 ≤ start + maxLength + overlap) :
    (if start + maxLength + overlap < (content.length : Int)
      then pySlice content start (start + maxLength + overlap)
      else pySlice content start (content.length : Int))
    = seg content start.toNat
        ((min (start + maxLength + overlap) (content.length : Int)).toNat - start.toNat) := by
  by_cases h : start + maxLength + overlap < (content.length : Int)
  · rw [if_pos h, pySlice_nonneg _ _ _ hs hpos]
    congr 1
    omega
  · rw [if_neg h, pySlice_nonneg _ _ _ hs (Int.natCast_nonneg _)]
    congr 1
    omega

/-- Reassembles a chunk list by keeping the first `d` characters of every
chunk except the last, which is kept whole; equality with the original content
expresses that the chunk ranges cover it exactly, with no gap, stepping by
`d` positions per chunk. -/
def joinWith (d : Nat) : List (List Char) → List Char
  | [] => []
  | [c] => c
  | c :: c2 :: rest => c.take d ++ joinWith d (c2 :: rest)

lemma splitFrom_eq_nil (content : List Char) (maxLength overlap : Int) (fuel : Nat)
    (start : Int) (hge : (content.length : Int) ≤ start) (cs : List (List Char))
    (hcs : splitFrom content maxLength overlap fuel start = some cs) : cs = [] := by
  rw [splitFrom_done _ _ _ _ _ hge] at hcs
  injection hcs with h
  exact h.symm

/-- Soundness of the `split_file` loop from any start position: chunk sizes
are bounded by `maxLength + overlap`, the chunks tile `content.drop start`
with step `maxLength - overlap`, and each chunk agrees with its successor on
the region where their ranges overlap. -/
lemma splitFrom_sound (content : List Char) (maxLength overlap : Int)
    (h0 : 0 ≤ overlap) (h1 : overlap < maxLength) :
    ∀ (fuel : Nat) (start : Int), 0 ≤ start →
      ∀ cs, splitFrom content maxLength overlap fuel start = some cs →
        ((∀ c ∈ cs, (c.length : Int) ≤ maxLength + overlap)
          ∧ joinWith (maxLength - overlap).toNat cs = content.drop start.toNat
          ∧ List.Chain' (fun a b => a.drop (maxLength - overlap).toNat
              = b.take (a.length - (maxLength - overlap).toNat)) cs) := by
  intro fuel
  induction fuel with
  | zero =>
    intro start hs cs hcs
    have hge : (content.length : Int) ≤ start := by
      by_contra hlt
      push_neg at hlt
      simp [splitFrom, hlt] at hcs
    obtain rfl := splitFrom_eq_nil _ _ _ _ _ hge _ hcs
    refine ⟨by simp, ?_, by simp⟩
    rw [List.drop_eq_nil_of_le (by omega)]
    rfl
  | succ f ih =>
    intro start hs cs hcs
    by_cases hlt : start < (content.length : Int)
    case neg =>
      have hge : (content.length : Int) ≤ start := not_lt.mp hlt
      obtain rfl := splitFrom_eq_nil _ _ _ _ _ hge _ hcs
      refine ⟨by simp, ?_, by simp⟩
      rw [List.drop_eq_nil_of_le (by omega)]
      rfl
    case pos =>
      simp only [splitFrom, if_pos hlt] at hcs
      rcases hr : splitFrom content maxLength overlap f (start + maxLength - overlap)
        with _ | rest
      · rw [hr] at hcs
        simp at hcs
      · rw [hr] at hcs
        simp only [Option.some.injEq] at hcs
        subst hcs
        rw [chunk_eq content maxLength overlap start hs (by omega)]
        have ihr := ih (start + maxLength - overlap) (by omega) rest hr
        have hE1 : start ≤ min (start + maxLength + overlap) (content.length : Int) := by
          omega
        have hE2 : min (start + maxLength + overlap) (content.length : Int)
            ≤ (content.length : Int) := min_le_right _ _
        refine ⟨?_, ?_, ?_⟩
        · intro c hc
          rcases List.mem_cons.mp hc with rfl | hc
          · rw [seg_length]
            omega
          · exact ihr.1 c hc
        · cases rest with
          | nil =>
            have hdone : (content.length : Int) ≤ start + maxLength - overlap :=
              splitFrom_some_nil _ _ _ _ _ hr
            have hkn : (min (start + maxLength + overlap) (content.length : Int)).toNat
                - start.toNat = content.length - start.toNat := by omega
            simp only [joinWith, hkn, seg]
            rw [List.take_of_length_le (by rw [List.length_drop])]
          | cons r rs =>
            have hlt2 : start + maxLength - overlap < (content.length : Int) := by
              by_contra hge2
              push_neg at hge2
              rw [splitFrom_done _ _ _ _ _ hge2] at hr
              simp at hr
            simp only [joinWith, seg]
            rw [ihr.2.1, List.take_take,
              min_eq_left (by omega :
                (maxLength - overlap).toNat
                  ≤ (min (start + maxLength + overlap) (content.length : Int)).toNat
                    - start.toNat),
              show (start + maxLength - overlap).toNat
                  = start.toNat + (maxLength - overlap).toNat from by omega]
            exact List.drop_take_append_drop content start.toNat (maxLength - overlap).toNat
        · cases rest with
          | nil => exact List.chain'_singleton _
          | cons r rs =>
            rw [List.chain'_cons]
            refine ⟨?_, ihr.2.2⟩
            have hlt2 : start + maxLength - overlap < (content.length : Int) := by
              by_contra hge2
              push_neg at hge2
              rw [splitFrom_done _ _ _ _ _ hge2] at hr
              simp at hr
            -- expose the shape of the successor chunk `r`
            cases f with
            | zero =>
              by_cases h2 : start + maxLength - overlap < (content.length : Int) <;>
                simp [splitFrom, h2] at hr
            | succ f2 =>
              simp only [splitFrom, if_pos hlt2] at hr
              rcases hr2 : splitFrom content maxLength overlap f2
                  (start + maxLength - overlap + maxLength - overlap) with _ | rest2
              · rw [hr2] at hr
                simp at hr
              · rw [hr2] at hr
                simp only [Option.some.injEq, List.cons.injEq] at hr
                have hrEq := hr.1
                rw [chunk_eq content maxLength overlap (start + maxLength - overlap)
                    (by omega) (by omega)] at hrEq
                rw [← hrEq]
                -- both sides are the segment from `start + d` to the end of the
                -- current chunk
                rw [seg_length,
                  min_eq_left (by omega :
                    (min (start + maxLength + overlap) (content.length : Int)).toNat
                      - start.toNat ≤ content.length - start.toNat)]
                simp only [seg]
                rw [List.drop_take, List.drop_drop, List.take_take]
                rw [show start.toNat + (maxLength - overlap).toNat
                    = (start + maxLength - overlap).toNat from by omega]
                congr 1
                omega


/-- Counterexample to C5: with `content = "abcdefghij"`, `maxLength = 4` and
`overlap = 1` the code slices `content[start : start + maxLength + overlap]`,
so the first chunk `"abcde"` has `5 > maxLength` characters and shares the two
characters `"de"` (`2 * overlap`, not `overlap`) with the second chunk
`"defgh"`; the claim that every chunk has at most `maxLength` characters is
false. -/
theorem split_file_counterexample :
    split_file ("abcdefghij".data) 4 1 20
      = some ["abcde".data, "defgh".data, "ghij".data, "j".data]
    ∧ ("abcde".data).drop 3 = ("defgh".data).take 2
    ∧ ¬ ∀ cs, split_file ("abcdefghij".data) 4 1 20 = some cs →
        ∀ c ∈ cs, c.length ≤ 4 := by
  refine ⟨by decide, by decide, fun hall => ?_⟩
  exact absurd
    (hall ["abcde".data, "defgh".data, "ghij".data, "j".data] (by decide)
      ("abcde".data) (by decide))
    (by decide)

/-- C5 as amended: for `0 ≤ overlap < maxLength`, whenever the generator
finishes, (1) every chunk has at most `maxLength + overlap` characters (not
`maxLength`: each window extends `overlap` characters past `start +
maxLength`); (2) the chunk ranges cover `[0, L)` in order with no gap —
keeping the first `maxLength - overlap` characters of every chunk and the
last chunk whole reassembles `content` exactly; (3) each chunk agrees with
its successor on the overlapping region of their ranges; and (4) that shared
region has exactly `2 * overlap` characters (not `overlap`) whenever the
earlier chunk is a full window of `maxLength + overlap` characters. -/
theorem split_file_chunks_spec (content : List Char) (maxLength overlap : Int)
    (h0 : 0 ≤ overlap) (h1 : overlap < maxLength) (fuel : Nat) (cs : List (List Char))
    (h : split_file content maxLength overlap fuel = some cs) :
    (∀ c ∈ cs, (c.length : Int) ≤ maxLength + overlap)
    ∧ joinWith (maxLength - overlap).toNat cs = content
    ∧ List.Chain' (fun a b => a.drop (maxLength - overlap).toNat
        = b.take (a.length - (maxLength - overlap).toNat)) cs
    ∧ List.Chain' (fun a b => a.length = (maxLength + overlap).toNat →
        a.drop (maxLength - overlap).toNat = b.take ((2 * overlap).toNat)
          ∧ (b.take ((2 * overlap).toNat)).length = (2 * overlap).toNat) cs := by
  have hmain := splitFrom_sound content maxLength overlap h0 h1 fuel 0 le_rfl cs h
  refine ⟨hmain.1, by simpa using hmain.2.1, hmain.2.2, ?_⟩
  refine hmain.2.2.imp (fun a b hR => ?_)
  intro hl
  have hsub : a.length - (maxLength - overlap).toNat = (2 * overlap).toNat := by omega
  rw [hsub] at hR
  refine ⟨hR, ?_⟩
  rw [← hR]
  simp only [List.length_drop]
  omega

/-- Witness for C5 (amended): the concrete run on `"abcdefghij"` with
`maxLength = 4`, `overlap = 1` satisfies all four amended properties. -/
theorem split_file_chunks_spec_witness :
    split_file ("abcdefghij".data) 4 1 20
      = some ["abcde".data, "defgh".data, "ghij".data, "j".data]
    ∧ ((∀ c ∈ ["abcde".data, "defgh".data, "ghij".data, "j".data],
          (c.length : Int) ≤ 4 + 1)
        ∧ joinWith ((4 - 1 : Int)).toNat
            ["abcde".data, "defgh".data, "ghij".data, "j".data] = "abcdefghij".data
        ∧ List.Chain' (fun a b => a.drop ((4 - 1 : Int)).toNat
            = b.take (a.length - ((4 - 1 : Int)).toNat))
            ["abcde".data, "defgh".data, "ghij".data, "j".data]
        ∧ List.Chain' (fun a b => a.length = ((4 + 1 : Int)).toNat →
            a.drop ((4 - 1 : Int)).toNat = b.take (((2 * 1 : Int)).toNat)
              ∧ (b.take (((2 * 1 : Int)).toNat)).length = ((2 * 1 : Int)).toNat)
            ["abcde".data, "defgh".data, "ghij".data, "j".data]) :=
  ⟨by decide,
    split_file_chunks_spec ("abcdefghij".data) 4 1 (by omega) (by omega) 20
      ["abcde".data, "defgh".data, "ghij".data, "j".data] (by decide)⟩

/-! ## Python helpers used by edit_line -/

/-- CPython `str.replace` with an empty pattern: the replacement is inserted
before every character and at the end. -/
def pyReplaceEmpty (newT : List Char) : List Char → List Char
  | [] => newT
  | c :: t => newT ++ c :: pyReplaceEmpty newT t

/-- The scanning loop of CPython `str.replace` for a nonempty pattern:
left-to-right, non-overlapping, every occurrence replaced.  `fuel` only makes
the recursion structural: every step consumes at least one character of `s`
(the pattern is nonempty), so with the `s.length + 1` supplied by
`pyReplaceL` the fuel never runs out before `s` is exhausted. -/
def replGo (oldT newT : List Char) : Nat → List Char → List Char
  | 0, s => s
  | fuel + 1, s =>
    if isPrefixB oldT s ∧ oldT ≠ [] then
      newT ++ replGo oldT newT fuel (s.drop oldT.length)
    else
      match s with
      | [] => []
      | c :: t => c :: replGo oldT newT fuel t

/-- CPython `str.replace(old, new)` on character lists: replaces **all**
non-overlapping occurrences, scanning left to right. -/
def pyReplaceL (s oldT newT : List Char) : List Char :=
  if oldT = [] then pyReplaceEmpty newT s else replGo oldT newT (s.length + 1) s

/-- Python `file.readlines()` on the file content: splits into lines, each
keeping its terminating newline; a last line without a newline is kept as is;
an empty content yields no lines. -/
def readlinesL : List Char → List (List Char)
  | [] => []
  | c :: t =>
    if c = '\n' then ['\n'] :: readlinesL t
    else
      match readlinesL t with
      | [] => [[c]]
      | L :: Ls => (c :: L) :: Ls

lemma readlinesL_ne_nil {t : List Char} (ht : t ≠ []) : readlinesL t ≠ [] := by
  cases t with
  | nil => exact absurd rfl ht
  | cons c t =>
    simp only [readlinesL]
    split
    · simp
    · split <;> simp

/-- `readlines` partitions the content: concatenating the lines restores it. -/
lemma readlinesL_join : ∀ (l : List Char), (readlinesL l).flatten = l := by
  intro l
  induction l with
  | nil => rfl
  | cons c t ih =>
    simp only [readlinesL]
    by_cases hc : c = '\n'
    · subst hc
      rw [if_pos rfl]
      simp only [List.flatten_cons, List.singleton_append]
      rw [ih]
    · rw [if_neg hc]
      rcases hr : readlinesL t with _ | ⟨L, Ls⟩
      · have ht : t = [] := by
          by_contra hne
          exact readlinesL_ne_nil hne hr
        subst ht
        simp
      · rw [hr] at ih
        simp only [List.flatten_cons] at ih ⊢
        rw [List.cons_append, ih]

/-- Whitespace recognised by Python `int()` argument stripping (the common
ASCII cases). -/
def isWsC (c : Char) : Bool :=
  c = ' ' || c = '\t' || c = '\n' || c = '\r'

/-- Python `str.strip()` (ASCII whitespace). -/
def stripWs (l : List Char) : List Char :=
  ((l.dropWhile isWsC).reverse.dropWhile isWsC).reverse

/-- Decimal digit run to a number; `none` when empty or not all digits. -/
def digitsToNat (l : List Char) : Option Nat :=
  if l ≠ [] ∧ l.all Char.isDigit then
    some (l.foldl (fun a c => a * 10 + (c.toNat - 48)) 0)
  else none

/-- Python `int(str)` on plain signed decimal literals (whitespace stripped,
optional sign; underscores are not modelled); `none` is the `ValueError`. -/
def pyIntL (l : List Char) : Option Int :=
  match stripWs l with
  | '-' :: r => (digitsToNat r).map (fun v => -(v : Int))
  | '+' :: r => (digitsToNat r).map (fun v => (v : Int))
  | r => (digitsToNat r).map (fun v => (v : Int))

/-- The line-number parsing step of `edit_line`: a comma means
`list(map(int, s.split(",")))`, otherwise `[int(s)]`; `none` is the caught
`ValueError`. -/
def parseLineNumbers (s : String) : Option (List Int) :=
  if s.data.contains ',' then (splitSepC ',' s.data).mapM pyIntL
  else (pyIntL s.data).map (fun n => [n])

/-- Python `list.insert(i, a)`: inserts before position `i`, appending when
`i` is past the end. -/
def insertAt {α : Type} : Nat → α → List α → List α
  | 0, a, l => a :: l
  | _ + 1, a, [] => [a]
  | n + 1, a, x :: t => x :: insertAt n a t

/-- Python `str.capitalize()`. -/
def pyCapitalize (s : String) : String :=
  match s.data with
  | [] => ""
  | c :: t => String.mk (c.toUpper :: t.map Char.toLower)

/-! ## edit_line (the LineEditor) -/

/-- The `actions` list of `edit_line`. -/
def actionsList : List String := ["add", "insert", "modify", "replace", "delete"]

/-- How an `edit_line` call ends: a returned message string (which may be one
of the source's `"Error: ..."` strings) or an uncaught Python exception. -/
inductive EditOutcome where
  | returned (msg : String)
  | raised (msg : String)
deriving DecidableEq

/-- Result of an `edit_line` call: the final filesystem, the outcome, and the
ordered trace of file writes the call performed (`writes` applied in order to
the initial filesystem yields `fs`). -/
structure EditResult where
  fs : FS
  outcome : EditOutcome
  writes : List (String × String)

/-- Apply an ordered write trace to the filesystem. -/
def applyWrites (fs : FS) (ws : List (String × String)) : FS :=
  ws.foldl (fun f pc => fsWrite f pc.1 pc.2) fs

/-- The per-line application loop of `edit_line` (its `for line_number in
line_numbers`), threading the current, already-mutated line list: bounds are
checked against the current list, `insert` adds `new_text + '\n'` before the
target line, `modify` requires `old_text` to occur in the current target line
(else the `TextNotFound` error return) and replaces via Python `str.replace`,
`delete` pops the line.  `Except.error` is an early `return` of the error
string. -/
def applyEdits (action : String) (oldT newT : List Char) :
    List Int → List (List Char) → Except String (List (List Char))
  | [], ls => .ok ls
  | n :: rest, ls =>
    if n < 1 ∨ (ls.length : Int) < n then
      .error ("Error: Line number " ++ toString n ++ " is out of range.")
    else if action = "add" ∨ action = "insert" then
      applyEdits action oldT newT rest (insertAt (n - 1).toNat (newT ++ ['\n']) ls)
    else if action = "replace" ∨ action = "modify" then
      if isInfixB oldT (ls.getD (n - 1).toNat []) then
        applyEdits action oldT newT rest
          (ls.set (n - 1).toNat (pyReplaceL (ls.getD (n - 1).toNat []) oldT newT))
      else
        .error ("Error: old_text '" ++ String.mk oldT ++ "' not found on line "
          ++ toString n ++ " '" ++ String.mk (ls.getD (n - 1).toNat []) ++ "'.")
    else if action = "delete" then
      applyEdits action oldT newT rest (ls.eraseIdx (n - 1).toNat)
    else
      applyEdits action oldT newT rest ls

/-- The validation and apply stages of `edit_line` (everything between the
file-existence check and the backup write, in source order): action
validation, required-argument checks, line-number parsing, file loading as a
line list, and the apply loop.  On success returns the pre-edit and post-edit
line lists.  The `isinstance(line_numbers, str)` check is vacuous here since
the argument is typed as a string. -/
def editPrepare (content lnStr action : String) (oldText newText : Option String) :
    Except String (List (List Char) × List (List Char)) :=
  if action ∉ actionsList then
    .error "Error: Invalid action. Must be one of ['add', 'insert', 'modify', 'replace', 'delete']."
  else if (action = "add" ∨ action = "replace" ∨ action = "insert" ∨ action = "modify")
      ∧ newText = none then
    .error "Error: new_text must be provided for 'add', 'insert' and 'modify' actions."
  else if (action = "replace" ∨ action = "modify") ∧ oldText = none then
    .error "Error: old_text must be provided for 'modify' action."
  else
    match parseLineNumbers lnStr with
    | none => .error "Error: Invalid line number(s) format. Must be an int or a list of ints."
    | some lns =>
      match applyEdits action ((oldText.getD "").data) ((newText.getD "").data) lns
          (readlinesL content.data) with
      | .error e => .error e
      | .ok m => .ok (readlinesL content.data, m)

/-- `edit_line(filename, line_numbers, action, old_text, new_text, debug)`.

Control flow as in the source: `safe_join` may raise (uncaught here, hence
`raised`); a missing file and all validation/apply failures return error
strings before any filesystem write; on success the pre-edit lines are
written to `<filepath>.bak` and then the mutated lines to `filepath` (the
`writes` trace records this order).  With `debug=True` — the default — the
source then evaluates `difflib.unified_diff`, but `difflib` is never imported
by the module, so a `NameError` is raised after the two writes and no summary
is returned; with `debug=False` the summary string reports the action, the
filename and whether the line list changed. -/
def edit_line (filename lnStr action : String) (oldText newText : Option String)
    (debug : Bool) (fs : FS) : EditResult :=
  match safe_join WORKING_DIRECTORY [filename] with
  | none => ⟨fs, .raised "ValueError: Attempted to access outside of working directory.", []⟩
  | some filepath =>
    match fs filepath with
    | none => ⟨fs, .returned ("Error: File '" ++ filepath ++ "' does not exist."), []⟩
    | some content =>
      match editPrepare content lnStr action oldText newText with
      | .error msg => ⟨fs, .returned msg, []⟩
      | .ok (orig, lines) =>
        let writes := [(filepath ++ ".bak", String.mk orig.flatten),
                       (filepath, String.mk lines.flatten)]
        let fs2 := applyWrites fs writes
        if debug then
          ⟨fs2, .raised "NameError: name 'difflib' is not defined", writes⟩
        else
          ⟨fs2, .returned ("File: " ++ filename ++ ", Action: " ++ pyCapitalize action
            ++ ", Result: " ++ (if orig ≠ lines then "Success." else "No changes made")),
            writes⟩

/-! ## edit_line theorems -/

/-- C3: every `edit_line` call that fails at the validation or apply stage —
missing file, invalid action, missing required text argument, unparsable line
spec, `LineOutOfRange` or `TextNotFound` (the `editPrepare` error returns) —
returns the error before any filesystem write: the filesystem is returned
unchanged (so the target file keeps its content and no backup file is
written) and the write trace is empty. -/
theorem edit_line_error_preserves_state (filename lnStr action : String)
    (oldText newText : Option String) (debug : Bool) (fs : FS) (filepath : String)
    (hj : safe_join WORKING_DIRECTORY [filename] = some filepath) :
    (fs filepath = none →
      edit_line filename lnStr action oldText newText debug fs
        = ⟨fs, .returned ("Error: File '" ++ filepath ++ "' does not exist."), []⟩)
    ∧ (∀ content msg, fs filepath = some content →
        editPrepare content lnStr action oldText newText = .error msg →
        edit_line filename lnStr action oldText newText debug fs
          = ⟨fs, .returned msg, []⟩) := by
  constructor
  · intro h
    simp [edit_line, hj, h]
  · intro content msg hc hp
    simp [edit_line, hj, hc, hp]

/-- Witness for C3: a `TextNotFound` failure (`modify` with absent
`old_text`) on a one-line file leaves the state untouched, with no backup
write. -/
theorem edit_line_error_preserves_state_witness :
    edit_line "f.txt" "1" "modify" (some "zzz") (some "Q") true
        (fsWrite emptyFS "/auto_gpt_workspace/f.txt" "abc\n")
      = ⟨fsWrite emptyFS "/auto_gpt_workspace/f.txt" "abc\n",
          .returned "Error: old_text 'zzz' not found on line 1 'abc\n'.", []⟩ :=
  (edit_line_error_preserves_state "f.txt" "1" "modify" (some "zzz") (some "Q") true
      (fsWrite emptyFS "/auto_gpt_workspace/f.txt" "abc\n")
      "/auto_gpt_workspace/f.txt" (by decide)).2
    "abc\n" "Error: old_text 'zzz' not found on line 1 'abc\n'." (by decide) rfl

lemma editPrepare_ok_orig (content lnStr action : String)
    (oldText newText : Option String) (orig lines : List (List Char))
    (h : editPrepare content lnStr action oldText newText = .ok (orig, lines)) :
    orig = readlinesL content.data := by
  simp only [editPrepare] at h
  split at h
  · simp at h
  split at h
  · simp at h
  split at h
  · simp at h
  split at h
  · simp at h
  split at h
  · simp at h
  simp only [Except.ok.injEq, Prod.mk.injEq] at h
  exact h.1.symm

/-- C4: every `edit_line` call that passes validation and the apply stage
performs exactly two writes, in order: first the verbatim pre-edit content to
the sibling backup file `<filepath>.bak`, then the mutated line sequence to
the original file — unconditionally, for either value of the debug flag, and
even when the mutated content equals the original. -/
theorem edit_line_backup_before_commit (filename lnStr action : String)
    (oldText newText : Option String) (debug : Bool) (fs : FS)
    (filepath content : String) (orig lines : List (List Char))
    (hj : safe_join WORKING_DIRECTORY [filename] = some filepath)
    (hc : fs filepath = some content)
    (hprep : editPrepare content lnStr action oldText newText = .ok (orig, lines)) :
    (edit_line filename lnStr action oldText newText debug fs).writes
      = [(filepath ++ ".bak", content), (filepath, String.mk lines.flatten)]
    ∧ (edit_line filename lnStr action oldText newText debug fs).fs
      = fsWrite (fsWrite fs (filepath ++ ".bak") content) filepath
          (String.mk lines.flatten) := by
  have horig : String.mk orig.flatten = content := by
    rw [editPrepare_ok_orig content lnStr action oldText newText orig lines hprep,
      readlinesL_join]
  constructor <;> cases debug <;>
    simp [edit_line, hj, hc, hprep, applyWrites, horig]

/-- Witness for C4: an identity edit (replacing `"a"` by `"a"`), whose result
equals the original content, still writes the backup first and then
overwrites the file. -/
theorem edit_line_backup_before_commit_witness :
    (edit_line "f.txt" "1" "modify" (some "a") (some "a") false
        (fsWrite emptyFS "/auto_gpt_workspace/f.txt" "ab\n")).writes
      = [("/auto_gpt_workspace/f.txt.bak", "ab\n"), ("/auto_gpt_workspace/f.txt", "ab\n")] := by
  have h := (edit_line_backup_before_commit "f.txt" "1" "modify" (some "a") (some "a")
      false (fsWrite emptyFS "/auto_gpt_workspace/f.txt" "ab\n")
      "/auto_gpt_workspace/f.txt" "ab\n" ["ab\n".data] ["ab\n".data]
      (by decide) (by decide) rfl).1
  rw [h]
  decide

/-- Counterexample to C8: Python `str.replace` replaces **all** occurrences,
not only the first.  On a file holding the single line `"abab\n"`, `modify`
at line 1 with `old_text = "ab"`, `new_text = "X"` commits `"XX\n"`, not the
`"Xab\n"` that first-occurrence-only replacement would produce. -/
theorem edit_modify_counterexample :
    (edit_line "f.txt" "1" "modify" (some "ab") (some "X") false
        (fsWrite emptyFS "/auto_gpt_workspace/f.txt" "abab\n")).fs
        "/auto_gpt_workspace/f.txt"
      = some "XX\n"
    ∧ some ("XX\n" : String) ≠ some ("Xab\n" : String) := by
  constructor <;> decide

/-- C8 as amended: within an `edit_line` call with action `modify` targeting
line `n`, when `old_text` occurs in the current target line, **every**
non-overlapping occurrence of `old_text` in that line (scanning left to
right) is replaced with `new_text` — the Python `str.replace` semantics
embodied by `pyReplaceL` — and the call commits; when `old_text` does not
occur in the target line, the call fails with the `TextNotFound` error and
the filesystem is unchanged. -/
theorem edit_modify_replaces_all (filename lnStr old new : String) (n : Int)
    (fs : FS) (filepath content : String)
    (hj : safe_join WORKING_DIRECTORY [filename] = some filepath)
    (hc : fs filepath = some content)
    (hp : parseLineNumbers lnStr = some [n])
    (h1 : 1 ≤ n) (h2 : n ≤ ((readlinesL content.data).length : Int)) :
    (isInfixB old.data ((readlinesL content.data).getD (n - 1).toNat []) = true →
      edit_line filename lnStr "modify" (some old) (some new) false fs
        = ⟨applyWrites fs [(filepath ++ ".bak", String.mk (readlinesL content.data).flatten),
              (filepath, String.mk ((readlinesL content.data).set (n - 1).toNat
                (pyReplaceL ((readlinesL content.data).getD (n - 1).toNat [])
                  old.data new.data)).flatten)],
            .returned ("File: " ++ filename ++ ", Action: " ++ pyCapitalize "modify"
              ++ ", Result: "
              ++ (if readlinesL content.data
                    ≠ (readlinesL content.data).set (n - 1).toNat
                        (pyReplaceL ((readlinesL content.data).getD (n - 1).toNat [])
                          old.data new.data)
                  then "Success." else "No changes made")),
            [(filepath ++ ".bak", String.mk (readlinesL content.data).flatten),
              (filepath, String.mk ((readlinesL content.data).set (n - 1).toNat
                (pyReplaceL ((readlinesL content.data).getD (n - 1).toNat [])
                  old.data new.data)).flatten)]⟩)
    ∧ (isInfixB old.data ((readlinesL content.data).getD (n - 1).toNat []) = false →
      edit_line filename lnStr "modify" (some old) (some new) false fs
        = ⟨fs, .returned ("Error: old_text '" ++ old ++ "' not found on line "
            ++ toString n ++ " '"
            ++ String.mk ((readlinesL content.data).getD (n - 1).toNat []) ++ "'."), []⟩) := by
  have hbound : ¬ (n < 1 ∨ ((readlinesL content.data).length : Int) < n) := by omega
  constructor
  · intro hinf
    have hprep : editPrepare content lnStr "modify" (some old) (some new)
        = .ok (readlinesL content.data,
            (readlinesL content.data).set (n - 1).toNat
              (pyReplaceL ((readlinesL content.data).getD (n - 1).toNat [])
                old.data new.data)) := by
      have hinf2 : isInfixB old.data ((readlinesL content.data)[n.toNat - 1]?.getD [])
          = true := by simpa using hinf
      simp [editPrepare, hp, actionsList, applyEdits, hbound, hinf2]
    simp [edit_line, hj, hc, hprep]
  · intro hinf
    have hprep : editPrepare content lnStr "modify" (some old) (some new)
        = .error ("Error: old_text '" ++ old ++ "' not found on line "
            ++ toString n ++ " '"
            ++ String.mk ((readlinesL content.data).getD (n - 1).toNat []) ++ "'.") := by
      have hinf2 : isInfixB old.data ((readlinesL content.data)[n.toNat - 1]?.getD [])
          = false := by simpa using hinf
      simp [editPrepare, hp, actionsList, applyEdits, hbound, hinf2]
    simp [edit_line, hj, hc, hprep]

/-- Witness for C8 (amended): on the line `"abab\n"` with `old_text = "ab"`,
`new_text = "X"`, the committed line is `"XX\n"` — both occurrences replaced. -/
theorem edit_modify_replaces_all_witness :
    (edit_line "f.txt" "1" "modify" (some "ab") (some "X") false
        (fsWrite emptyFS "/auto_gpt_workspace/f.txt" "abab\n")).fs
        "/auto_gpt_workspace/f.txt"
      = some "XX\n" := by
  have h := (edit_modify_replaces_all "f.txt" "1" "ab" "X" 1
      (fsWrite emptyFS "/auto_gpt_workspace/f.txt" "abab\n")
      "/auto_gpt_workspace/f.txt" "abab\n"
      (by decide) (by decide) (by decide) (by omega) (by decide)).1 (by decide)
  rw [h]
  decide

/-- C10 (code bug): on a successful edit with `debug=True` (the default), the
source evaluates `difflib.unified_diff` — but `difflib` is never imported, so
the call raises `NameError` after committing both writes and returns no
summary; only with `debug=False` is the claimed summary string (action,
filename, whether content changed) returned. -/
theorem edit_line_debug_raises :
    (edit_line "f.txt" "1" "insert" none (some "X") true
        (fsWrite emptyFS "/auto_gpt_workspace/f.txt" "a\n")).outcome
      = .raised "NameError: name 'difflib' is not defined"
    ∧ (edit_line "f.txt" "1" "insert" none (some "X") true
        (fsWrite emptyFS "/auto_gpt_workspace/f.txt" "a\n")).fs
        "/auto_gpt_workspace/f.txt" = some "X\na\n"
    ∧ (edit_line "f.txt" "1" "insert" none (some "X") true
        (fsWrite emptyFS "/auto_gpt_workspace/f.txt" "a\n")).fs
        "/auto_gpt_workspace/f.txt.bak" = some "a\n"
    ∧ (edit_line "f.txt" "1" "insert" none (some "X") true
        (fsWrite emptyFS "/auto_gpt_workspace/f.txt" "a\n")).writes
      = [("/auto_gpt_workspace/f.txt.bak", "a\n"), ("/auto_gpt_workspace/f.txt", "X\na\n")]
    ∧ (edit_line "f.txt" "1" "insert" none (some "X") false
        (fsWrite emptyFS "/auto_gpt_workspace/f.txt" "a\n")).outcome
      = .returned "File: f.txt, Action: Insert, Result: Success." := by
  refine ⟨by decide, by decide, by decide, by decide, by decide⟩

end FileOps
